import Mathlib

/-!
# Verification of the openclaw-mission-control realtime layer

Shallow embedding, in Lean 4, of the parts of the repository that the
frozen claims C1..C10 are about:

* `app/core/events.py` — `broadcast_event`, `_matches_subscriptions`,
  `_replay_from_buffer`, `_replay_from_db`, `event_generator`;
* `app/models/event.py` — the `Event` row with its globally-sequenced
  `sequence_id` (Postgres sequence `events_sequence_id_seq`);
* `app/api/v1/events.py` — the SSE endpoint's connection-limit check;
* `app/core/chat.py` — `ConnectionManager.connect` and the WebSocket
  connection limit;
* `app/api/v1/channels.py` — the WebSocket `message` frame handler and
  `_handle_mentions_and_commands`;
* `packages/bridge/mc_bridge/router.py` — `EventRouter._handle_message`
  and `_handle_command` (self-loop prevention);
* `packages/bridge/mc_bridge/relay.py` — `MessageRelay.post_to_mc` and
  `_post_to_mc` (retry / backoff / bounded outbound buffer).

Conventions of the embedding:

* Python `str` is Lean `String`; UUIDs are carried as their canonical
  string form.  Python integers are `Int` (the SSE cursor uses the
  sentinel `-1`), database sequence values are `Int`.
* `dict.get(k)` returning `None` for a missing key is `Option`.
* Python truthiness of strings (`if not s`) is the predicate
  `s = ""` / `Option.none` (`pyFalsy`).
* Wall-clock timestamps and the random UUID primary keys are opaque to
  every claim; they are either omitted or passed in as inputs.
* Effectful code is modelled by explicit state passing: the broadcaster
  acts on a `BWorld` (durable log, global sequence counter, per-tenant
  ring buffer, pub/sub fabric); the SSE generator is a pure function from
  its inputs (connection count, cursor, buffer and DB snapshots, the list
  of pub/sub poll outcomes until disconnect) to the list of emitted
  frames; fallible code returns a sum type.
* Float durations in the bridge relay (`Retry-After`, exponential
  backoff) are modelled as `ℚ`; every value the code manipulates
  (1.0 · 2^n, small header values) is exactly representable.
-/

/-! ## Shared basics -/

/-- Python truthiness of an optional string: `None` and `""` are falsy. -/
def pyFalsy : Option String → Bool
  | none => true
  | some s => s = ""

/-- Python `a or b` for an optional string `a` with default `b`
(`None` and `""` both fall through to `b`). -/
def pyStrOr (a : Option String) (b : String) : String :=
  match a with
  | none => b
  | some s => if s = "" then b else s

/-- Python `x or d` where `x : Optional[int]`: `None` and `0` are falsy
(this is the `max_seen_id = last_event_id or -1` idiom). -/
def pyIntOr (a : Option Int) (d : Int) : Int :=
  match a with
  | none => d
  | some n => if n = 0 then d else n

/-- Python `str.lstrip()` on the character list. -/
def pyLStripList (cs : List Char) : List Char :=
  cs.dropWhile Char.isWhitespace

/-- Python `str.strip()` (both ends). -/
def pyStrip (s : String) : String :=
  ⟨(pyLStripList s.toList.reverse).reverse |> pyLStripList⟩

/-- Python `s.split(None, 1)[0]`: first whitespace-delimited token of an
already-stripped string. -/
def firstToken (s : String) : String :=
  ⟨s.toList.takeWhile (fun c => ¬ c.isWhitespace)⟩

/-- Python `s.split(None, 1)[1]` (or `""`): remainder after the first
token, with the separating whitespace run removed. -/
def restTokens (s : String) : String :=
  ⟨(s.toList.dropWhile (fun c => ¬ c.isWhitespace)).dropWhile Char.isWhitespace⟩

/-! ## Event records (`app/models/event.py`)

An `events` row as seen by the realtime layer.  `sequence_id` is
populated from the single database sequence `events_sequence_id_seq`
(migration `0001_full_production_schema.py` creates exactly one sequence,
shared by all organizations).  The random `id` UUID and the wall-clock
`timestamp` play no role in any claim and are omitted.  The payload is
modelled by the three ids the subscription filter inspects. -/

/-- The payload fields `_matches_subscriptions` reads
(`payload.get("project_id") / ("task_id") / ("channel_id")`). -/
structure EvPayload where
  project_id : Option String
  task_id : Option String
  channel_id : Option String
  deriving DecidableEq, Repr

/-- An event record (`Event` row / the JSON dict `broadcast_event` builds). -/
structure EvtData where
  sequence_id : Int
  org_id : String
  type : String
  actor_id : Option String
  actor_type : String
  payload : EvPayload
  deriving DecidableEq, Repr

/-! ## The event broadcaster (`app/core/events.py`, `broadcast_event`)

State touched by `broadcast_event`: the durable `events` table together
with the global sequence, the per-org Redis ring buffer
(`lpush` + `ltrim 0 499`, newest first), and the pub/sub fabric (modelled
as the ordered list of published events).  A failing DB commit raises in
Python; here it is the `err` constructor, which carries the unchanged
world back to the caller. -/

def BUFFER_SIZE : Nat := 500

structure BWorld where
  log : List EvtData
  seqCounter : Int
  buffers : String → List EvtData
  published : List EvtData

/-- Redis `LPUSH` followed by `LTRIM 0 (BUFFER_SIZE-1)`. -/
def bufferPush (buf : List EvtData) (e : EvtData) : List EvtData :=
  (e :: buf).take BUFFER_SIZE

/-- Result of `broadcast_event`: `ok` returns the new world and the
persisted event; `err` surfaces the storage error, carrying the
caller-visible (unchanged) world. -/
inductive BResult where
  | ok (w : BWorld) (e : EvtData)
  | err (w : BWorld) (msg : String)

/-- `broadcast_event(session, org_id, event_type, payload, actor_id,
actor_type)`.  `dbOk` says whether the `session.commit()` of step 1
succeeds; on failure the exception propagates before any Redis access.
On success the event (with its sequence value drawn from the global
sequence) is pushed onto the org's ring buffer and then published. -/
def broadcast_event (w : BWorld) (dbOk : Bool) (orgId : String)
    (eventType : String) (payload : EvPayload)
    (actorId : Option String) (actorType : String) : BResult :=
  if dbOk then
    let seq := w.seqCounter + 1
    let ev : EvtData :=
      { sequence_id := seq, org_id := orgId, type := eventType
        actor_id := actorId, actor_type := actorType, payload := payload }
    let w1 : BWorld := { w with log := w.log ++ [ev], seqCounter := seq }
    let w2 : BWorld :=
      { w1 with buffers := fun o => if o = orgId then bufferPush (w1.buffers o) ev else w1.buffers o }
    let w3 : BWorld := { w2 with published := w2.published ++ [ev] }
    .ok w3 ev
  else
    .err w "db append failed"

/-! ## Subscription filtering (`app/core/events.py`, `_matches_subscriptions`) -/

/-- One entry of the user's subscription filter, as the dicts built in
`app/api/v1/events.py` (`{"topic_type": ..., "topic_id": ...}`); the
fields are read with `dict.get`, hence `Option`. -/
structure SubEntry where
  topic_type : Option String
  topic_id : Option String
  deriving DecidableEq, Repr

/-- Python `str(x)` on an optional string (`str(None) = "None"`). -/
def pyStr : Option String → String
  | none => "None"
  | some s => s

/-- Python `s.startswith(pre)`. -/
def pyStartsWith (s pre : String) : Bool :=
  List.isPrefixOf pre.toList s.toList

/-- The body of the `for sub in subscriptions` loop: does one filter
entry match the event? -/
def subMatches (eventType : String) (payload : EvPayload) (sub : SubEntry) : Bool :=
  (sub.topic_type == some "project" && !(pyFalsy payload.project_id)
      && pyStr payload.project_id == pyStr sub.topic_id)
  || (sub.topic_type == some "task" && !(pyFalsy payload.task_id)
      && pyStr payload.task_id == pyStr sub.topic_id)
  || (sub.topic_type == some "channel" && !(pyFalsy payload.channel_id)
      && pyStr payload.channel_id == pyStr sub.topic_id)
  || (sub.topic_type == some "event_type" && pyStartsWith eventType (pyStr sub.topic_id))

/-- `_matches_subscriptions(event_type, event_payload, subscriptions)`:
`None` or `[]` means no filter (everything passes), otherwise any
matching entry suffices. -/
def matches_subscriptions (eventType : String) (payload : EvPayload)
    (subs : Option (List SubEntry)) : Bool :=
  match subs with
  | none => true
  | some [] => true
  | some l => l.any (subMatches eventType payload)

/-! ## Replay (`_replay_from_buffer`, `_replay_from_db`) -/

def MAX_CONNECTIONS_PER_ORG : Nat := 50
def MAX_REPLAY_EVENTS : Nat := 1000

/-- Stable insertion of an event into a list sorted by `sequence_id`
(equal keys keep their original relative order, as Python's stable
`sort(key=lambda x: x["sequence_id"])` does). -/
def insertSeq (e : EvtData) : List EvtData → List EvtData
  | [] => [e]
  | b :: rest =>
    if b.sequence_id ≤ e.sequence_id then b :: insertSeq e rest
    else e :: b :: rest

/-- Stable sort by `sequence_id`, used by both replay paths
(`sort(key=lambda x: x["sequence_id"])` and `ORDER BY sequence_id`). -/
def sortBySeq : List EvtData → List EvtData
  | [] => []
  | e :: rest => insertSeq e (sortBySeq rest)

theorem mem_insertSeq (e a : EvtData) (l : List EvtData) :
    a ∈ insertSeq e l ↔ a = e ∨ a ∈ l := by
  induction l with
  | nil => simp [insertSeq]
  | cons b rest ih =>
    simp only [insertSeq]
    split <;> (simp only [List.mem_cons, ih]; try tauto)

theorem mem_sortBySeq (l : List EvtData) (a : EvtData) :
    a ∈ sortBySeq l ↔ a ∈ l := by
  induction l with
  | nil => simp [sortBySeq]
  | cons e rest ih => simp [sortBySeq, mem_insertSeq, ih]

/-- `_replay_from_buffer(org_id, last_event_id)` over the org's buffer
contents.  Returns `(events, needs_db_fallback)`. -/
def replay_from_buffer (buffer : List EvtData) (lastEventId : Int) :
    List EvtData × Bool :=
  match sortBySeq buffer with
  | [] => ([], true)
  | b0 :: _ =>
    if b0.sequence_id ≤ lastEventId then
      ((sortBySeq buffer).filter (fun e => lastEventId < e.sequence_id), false)
    else ([], true)

/-- `SELECT min(sequence_id) FROM events WHERE org_id = :org`: the
smallest retained sequence id of the tenant (`NULL`, i.e. `none`, when
the tenant has no retained events).  This is the spec's
`min_sequence_id(tenant)`. -/
def minDbSeq (db : List EvtData) (orgId : String) : Option Int :=
  ((db.filter (fun e => e.org_id == orgId)).map (·.sequence_id)).min?

/-- `_replay_from_db(org_id, last_event_id)` over the full `events`
table.  Returns `(events, should_reset)`.  The replay query filters the
tenant's events with `sequence_id > last_event_id`, orders ascending and
applies `LIMIT MAX_REPLAY_EVENTS`. -/
def replay_from_db (db : List EvtData) (orgId : String) (lastEventId : Int) :
    List EvtData × Bool :=
  let orgEvents := db.filter (fun e => e.org_id == orgId)
  let selected :=
    (sortBySeq (orgEvents.filter (fun e => lastEventId < e.sequence_id))).take
      MAX_REPLAY_EVENTS
  match minDbSeq db orgId with
  | some minSeq => if lastEventId < minSeq - 1 then ([], true) else (selected, false)
  | none => (selected, false)

/-! ## The SSE generator (`event_generator`)

The generator is modelled as a pure function onto the list of frames it
yields.  Its interaction with the outside world is captured by inputs:

* `countAfterIncr` — the value the Redis `INCR` of the connection
  counter returned at stream start;
* `buffer` / `db` — the org's ring-buffer snapshot and the `events`
  table at replay time;
* `live` — the outcomes of the successive pub/sub polls (`timeout`
  yields a heartbeat) until the client disconnects (end of list);
* `jti` / `revoked` — the token id and whether the periodic revocation
  check finds it revoked.
-/

/-- One frame yielded by the generator. -/
inductive Emit where
  | errorLimit
  | reset (reason : String)
  | revoked
  | heartbeat
  | data (e : EvtData)
  deriving DecidableEq, Repr

/-- Outcome of one `pubsub.get_message` poll: heartbeat timeout, or a
delivered pub/sub frame with its `type` field and decoded event. -/
inductive Poll where
  | timeout
  | msg (mtype : String) (e : EvtData)
  deriving DecidableEq, Repr

/-- The replay `for event_data in replay_events` loop: emit each event
with `sequence_id > max_seen_id` that passes the filter, advancing
`max_seen_id`.  Returns the emissions and the final `max_seen_id`. -/
def emitReplay (subs : Option (List SubEntry)) (maxSeen : Int) :
    List EvtData → List Emit × Int
  | [] => ([], maxSeen)
  | e :: rest =>
    if maxSeen < e.sequence_id then
      if matches_subscriptions e.type e.payload subs then
        let p := emitReplay subs e.sequence_id rest
        (Emit.data e :: p.1, p.2)
      else emitReplay subs maxSeen rest
    else emitReplay subs maxSeen rest

/-- The `while True` live loop.  `counter` is the revocation-check
counter (reset whenever it reaches 10 with a `jti` present); the loop
ends at client disconnect (end of `live`) or on a revoked token. -/
def liveLoop (orgId : String) (subs : Option (List SubEntry))
    (jti : Option String) (revoked : Bool) :
    Nat → Int → List Poll → List Emit
  | _, _, [] => []
  | counter, maxSeen, p :: rest =>
    let c1 := counter + 1
    if 10 ≤ c1 && jti.isSome && revoked then [Emit.revoked]
    else
      let c2 := if 10 ≤ c1 && jti.isSome then 0 else c1
      match p with
      | Poll.timeout =>
        Emit.heartbeat :: liveLoop orgId subs jti revoked c2 maxSeen rest
      | Poll.msg mtype e =>
        if mtype = "message" then
          if e.org_id = orgId then
            if maxSeen < e.sequence_id then
              if matches_subscriptions e.type e.payload subs then
                Emit.data e :: liveLoop orgId subs jti revoked c2 e.sequence_id rest
              else liveLoop orgId subs jti revoked c2 maxSeen rest
            else liveLoop orgId subs jti revoked c2 maxSeen rest
          else liveLoop orgId subs jti revoked c2 maxSeen rest
        else liveLoop orgId subs jti revoked c2 maxSeen rest

/-- The replay phase of `event_generator` (the
`if last_event_id is not None and last_event_id >= 0` block): returns
the synthetic emissions (`events.reset` when the DB fallback says the
cursor expired) and the list of events to run through the replay loop. -/
def replayPhase (orgId : String) (lastEventId : Option Int)
    (buffer db : List EvtData) : List Emit × List EvtData :=
  match lastEventId with
  | some c =>
    if 0 ≤ c then
      let (revts, needsDb) := replay_from_buffer buffer c
      if needsDb then
        let (dbEvts, shouldReset) := replay_from_db db orgId c
        (if shouldReset then [Emit.reset "cursor_expired"] else [], dbEvts)
      else ([], revts)
    else ([], [])
  | none => ([], [])

/-- `event_generator(request, org_id, last_event_id, subscriptions, jti)`.
Connection-limit check, replay phase (buffer → DB fallback →
`events.reset`), then the live loop. -/
def event_generator (countAfterIncr : Nat) (orgId : String)
    (lastEventId : Option Int) (subs : Option (List SubEntry))
    (buffer db : List EvtData) (live : List Poll)
    (jti : Option String) (revoked : Bool) : List Emit :=
  if MAX_CONNECTIONS_PER_ORG < countAfterIncr then [Emit.errorLimit]
  else
    -- `max_seen_id = last_event_id or -1`
    let maxSeen := pyIntOr lastEventId (-1)
    let (resetEmits, replayEvents) := replayPhase orgId lastEventId buffer db
    let (replayOut, maxSeen2) := emitReplay subs maxSeen replayEvents
    resetEmits ++ replayOut ++ liveLoop orgId subs jti revoked 0 maxSeen2 live

/-! ## Theorems: the event broadcaster (C1) -/

/-- C1: every call to `broadcast_event(org, type, payload, actor)` first
appends the event to the durable log; only if that append succeeds is
the event pushed onto the per-tenant ring buffer and then published to
the pub/sub fabric; if the append fails the error surfaces to the caller
and neither the buffer nor the fabric (nor the log) changes. -/
theorem broadcast_event_order_and_failstop (w : BWorld) (orgId eventType : String)
    (payload : EvPayload) (actorId : Option String) (actorType : String) :
    (∃ ev : EvtData,
      ev = { sequence_id := w.seqCounter + 1, org_id := orgId, type := eventType
             actor_id := actorId, actor_type := actorType, payload := payload } ∧
      broadcast_event w true orgId eventType payload actorId actorType =
        BResult.ok
          { log := w.log ++ [ev]
            seqCounter := w.seqCounter + 1
            buffers := fun o =>
              if o = orgId then bufferPush (w.buffers o) ev else w.buffers o
            published := w.published ++ [ev] }
          ev) ∧
    broadcast_event w false orgId eventType payload actorId actorType =
      BResult.err w "db append failed" := by
  refine ⟨⟨_, rfl, ?_⟩, rfl⟩
  rfl

/-! ## Theorems: SSE stream monotonicity (C2) -/

/-- The sequence ids of the data events in a list of emitted frames, in
emission order (heartbeats, resets, errors carry no sequence id). -/
def dataSeqs (es : List Emit) : List Int :=
  es.filterMap fun e =>
    match e with
    | Emit.data d => some d.sequence_id
    | _ => none

@[simp] theorem dataSeqs_nil : dataSeqs [] = [] := rfl

@[simp] theorem dataSeqs_cons_data (e : EvtData) (l : List Emit) :
    dataSeqs (Emit.data e :: l) = e.sequence_id :: dataSeqs l := rfl

@[simp] theorem dataSeqs_cons_heartbeat (l : List Emit) :
    dataSeqs (Emit.heartbeat :: l) = dataSeqs l := rfl

@[simp] theorem dataSeqs_cons_revoked (l : List Emit) :
    dataSeqs (Emit.revoked :: l) = dataSeqs l := rfl

@[simp] theorem dataSeqs_cons_reset (r : String) (l : List Emit) :
    dataSeqs (Emit.reset r :: l) = dataSeqs l := rfl

@[simp] theorem dataSeqs_cons_errorLimit (l : List Emit) :
    dataSeqs (Emit.errorLimit :: l) = dataSeqs l := rfl

@[simp] theorem dataSeqs_append (a b : List Emit) :
    dataSeqs (a ++ b) = dataSeqs a ++ dataSeqs b :=
  List.filterMap_append a b _

/-- Every element of `l` lies strictly above `m` and `l` is strictly
increasing. -/
def MonoFrom (m : Int) (l : List Int) : Prop :=
  (∀ s ∈ l, m < s) ∧ l.Pairwise (· < ·)

theorem monoFrom_nil (m : Int) : MonoFrom m [] := by simp [MonoFrom]

theorem monoFrom_cons {m a : Int} {l : List Int} (h : m < a)
    (h2 : MonoFrom a l) : MonoFrom m (a :: l) := by
  obtain ⟨hall, hpw⟩ := h2
  refine ⟨?_, ?_⟩
  · intro s hs
    rcases List.mem_cons.mp hs with rfl | hs
    · exact h
    · exact h.trans (hall s hs)
  · exact List.pairwise_cons.mpr ⟨fun b hb => hall b hb, hpw⟩

/-- The live loop only emits data events whose sequence ids climb
strictly from the `max_seen_id` it starts with. -/
theorem liveLoop_monoFrom (orgId : String) (subs : Option (List SubEntry))
    (jti : Option String) (revoked : Bool) :
    ∀ (live : List Poll) (counter : Nat) (m : Int),
    MonoFrom m (dataSeqs (liveLoop orgId subs jti revoked counter m live)) := by
  intro live
  induction live with
  | nil => intro counter m; simp [liveLoop, monoFrom_nil]
  | cons p rest ih =>
    intro counter m
    cases p with
    | timeout =>
      simp only [liveLoop]
      split
      · simp [monoFrom_nil]
      · simpa using ih _ m
    | msg mtype e =>
      simp only [liveLoop]
      split
      · simp [monoFrom_nil]
      · split
        · split
          · split
            · split
              · rename_i hseq _
                simpa using monoFrom_cons hseq (ih _ e.sequence_id)
              · exact ih _ m
            · exact ih _ m
          · exact ih _ m
        · exact ih _ m

/-- The replay loop emits data events climbing strictly from the
initial `max_seen_id`, never decreases `max_seen_id`, and every emitted
sequence id is bounded by the final `max_seen_id`. -/
theorem emitReplay_spec (subs : Option (List SubEntry)) :
    ∀ (evs : List EvtData) (m : Int),
    MonoFrom m (dataSeqs (emitReplay subs m evs).1) ∧
    m ≤ (emitReplay subs m evs).2 ∧
    ∀ s ∈ dataSeqs (emitReplay subs m evs).1, s ≤ (emitReplay subs m evs).2 := by
  intro evs
  induction evs with
  | nil => intro m; simp [emitReplay, monoFrom_nil]
  | cons e rest ih =>
    intro m
    simp only [emitReplay]
    split
    · split
      · rename_i hseq _
        obtain ⟨hmono, hle, hbound⟩ := ih e.sequence_id
        refine ⟨monoFrom_cons hseq hmono, le_of_lt (lt_of_lt_of_le hseq hle), ?_⟩
        intro s hs
        simp only [dataSeqs_cons_data, List.mem_cons] at hs
        rcases hs with rfl | hs
        · exact hle
        · exact hbound s hs
      · exact ih m
    · exact ih m

/-- The synthetic part of the replay phase contains no data events
(it is `[]` or a single `events.reset`). -/
theorem replayPhase_fst_no_data (orgId : String) (lastEventId : Option Int)
    (buffer db : List EvtData) :
    dataSeqs (replayPhase orgId lastEventId buffer db).1 = [] := by
  unfold replayPhase
  rcases lastEventId with _ | c
  · rfl
  · repeat' split
    all_goals rfl

/-- C2: on any single SSE stream, the emitted data events have strictly
increasing `sequence_id` — any event delivered earlier has a strictly
smaller sequence id than any event delivered later, so no sequence id
is emitted twice, including across the replay/live boundary. -/
theorem sse_stream_seq_ids_strictly_increase (countAfterIncr : Nat)
    (orgId : String) (lastEventId : Option Int) (subs : Option (List SubEntry))
    (buffer db : List EvtData) (live : List Poll)
    (jti : Option String) (revoked : Bool) :
    (dataSeqs (event_generator countAfterIncr orgId lastEventId subs buffer db
      live jti revoked)).Pairwise (· < ·) := by
  unfold event_generator
  split
  · simp
  · rcases hp : replayPhase orgId lastEventId buffer db with ⟨resetEmits, replayEvents⟩
    have hreset : dataSeqs resetEmits = [] := by
      have h := replayPhase_fst_no_data orgId lastEventId buffer db
      rw [hp] at h
      exact h
    rcases he : emitReplay subs (pyIntOr lastEventId (-1)) replayEvents with ⟨replayOut, maxSeen2⟩
    simp only [hp, he, dataSeqs_append, hreset, List.nil_append]
    rw [List.pairwise_append]
    obtain ⟨⟨_, hpw⟩, _, hbound⟩ := emitReplay_spec subs replayEvents (pyIntOr lastEventId (-1))
    rw [he] at hpw hbound
    obtain ⟨hlall, hlpw⟩ := liveLoop_monoFrom orgId subs jti revoked live 0 maxSeen2
    exact ⟨hpw, hlpw, fun a ha b hb => lt_of_le_of_lt (hbound a ha) (hlall b hb)⟩

/-! ## Theorems: `events.reset` on expired cursors (C3) -/

/-- A tenant `"org"` event with sequence id 5 (no payload ids). -/
def c3ev5 : EvtData :=
  { sequence_id := 5, org_id := "org", type := "task.created"
    actor_id := none, actor_type := "system", payload := ⟨none, none, none⟩ }

/-- A tenant `"org"` event with sequence id 6. -/
def c3ev6 : EvtData :=
  { sequence_id := 6, org_id := "org", type := "task.updated"
    actor_id := none, actor_type := "system", payload := ⟨none, none, none⟩ }

/-- C3 counterexample: reconnect with cursor `4` while the tenant's
smallest retained sequence id is `5`.  The claim demands an
`events.reset` (since `4 < 5`), but the stream replays events 5 and 6
with no reset: the code only resets when
`cursor < min_sequence_id - 1`. -/
theorem sse_reset_claim_counterexample :
    minDbSeq [c3ev5, c3ev6] "org" = some 5 ∧ (4 : Int) < 5 ∧
    event_generator 1 "org" (some 4) none [] [c3ev5, c3ev6] [] none false =
      [Emit.data c3ev5, Emit.data c3ev6] := by
  refine ⟨by decide, by decide, ?_⟩
  decide

/-- When the cursor lies strictly below every buffered sequence id, the
buffer replay reports a DB fallback. -/
theorem replay_from_buffer_fallback {buffer : List EvtData} {c m : Int}
    (hbuf : ∀ e ∈ buffer, m ≤ e.sequence_id) (hexp : c < m - 1) :
    replay_from_buffer buffer c = ([], true) := by
  unfold replay_from_buffer
  cases hms : sortBySeq buffer with
  | nil => rfl
  | cons b0 tl =>
    have hb0s : b0 ∈ sortBySeq buffer := by
      rw [hms]; exact List.mem_cons_self b0 tl
    have hb0 : b0 ∈ buffer := (mem_sortBySeq buffer b0).mp hb0s
    have hlt : ¬ (b0.sequence_id ≤ c) := by
      have := hbuf b0 hb0
      omega
    simp [hlt]

/-- C3 amended: if at reconnect the client cursor `c` satisfies
`c < min_sequence_id(tenant) - 1` (the event `c+1` is no longer
retained) — not merely `c < min_sequence_id` — and the ring buffer only
holds events at or above the retained minimum, the stream emits a
synthetic `events.reset` with reason `cursor_expired` before any
replayed or live event (it is the very first frame). -/
theorem sse_reset_on_expired_cursor (count : Nat) (orgId : String) (c m : Int)
    (subs : Option (List SubEntry)) (buffer db : List EvtData)
    (live : List Poll) (jti : Option String) (revoked : Bool)
    (hcount : count ≤ MAX_CONNECTIONS_PER_ORG)
    (hc : 0 ≤ c)
    (hmin : minDbSeq db orgId = some m)
    (hexp : c < m - 1)
    (hbuf : ∀ e ∈ buffer, m ≤ e.sequence_id) :
    ∃ rest, event_generator count orgId (some c) subs buffer db live jti revoked =
      Emit.reset "cursor_expired" :: rest := by
  unfold event_generator
  have hnotover : ¬ (MAX_CONNECTIONS_PER_ORG < count) := by omega
  rw [if_neg hnotover]
  have hphase : replayPhase orgId (some c) buffer db =
      ([Emit.reset "cursor_expired"], []) := by
    simp only [replayPhase]
    rw [if_pos hc, replay_from_buffer_fallback hbuf hexp]
    simp [replay_from_db, hmin, if_pos hexp]
  rw [hphase]
  exact ⟨_, rfl⟩

/-- Witness for the amended C3 theorem at a concrete reconnect:
cursor 2, retained minimum 5, one buffered event. -/
theorem sse_reset_on_expired_cursor_witness :
    (1 : Nat) ≤ MAX_CONNECTIONS_PER_ORG ∧ (0 : Int) ≤ 2 ∧
    minDbSeq [c3ev5, c3ev6] "org" = some 5 ∧ (2 : Int) < 5 - 1 ∧
    (∀ e ∈ [c3ev6], (5 : Int) ≤ e.sequence_id) ∧
    ∃ rest, event_generator 1 "org" (some 2) none [c3ev6] [c3ev5, c3ev6] [] none false =
      Emit.reset "cursor_expired" :: rest :=
  ⟨by decide, by decide, by decide, by decide, by decide,
    sse_reset_on_expired_cursor 1 "org" 2 5 none [c3ev6] [c3ev5, c3ev6] [] none false
      (by decide) (by decide) (by decide) (by decide) (by decide)⟩

/-! ## Theorems: per-tenant sequence ids (C4)

`sequence_id` is drawn from the single Postgres sequence
`events_sequence_id_seq` (one `CREATE SEQUENCE` in migration 0001,
shared by every organization), so consecutive successful appends by
*different* tenants consume consecutive values of the *same* counter. -/

/-- A sequence of successful appends through the broadcaster
(`dbOk = true` throughout): each request is `(org, type, payload)`. -/
def runBroadcasts (w : BWorld) : List (String × String × EvPayload) → BWorld
  | [] => w
  | (org, ty, pl) :: rest =>
    match broadcast_event w true org ty pl none "system" with
    | BResult.ok w2 _ => runBroadcasts w2 rest
    | BResult.err w2 _ => runBroadcasts w2 rest

/-- The sequence ids a tenant sees in the log, in append order. -/
def tenantSeqs (log : List EvtData) (org : String) : List Int :=
  (log.filter (fun e => e.org_id == org)).map (·.sequence_id)

/-- Gap-free (consecutive) list of sequence ids. -/
def GapFree : List Int → Prop :=
  List.Chain' (fun a b => b = a + 1)

/-- The empty broadcaster world. -/
def c4w0 : BWorld :=
  { log := [], seqCounter := 0, buffers := fun _ => [], published := [] }

/-- C4 counterexample: three successful appends, tenants `a, b, a`, no
retention drop anywhere — tenant `a`'s sequence ids come out `[1, 3]`:
strictly increasing but with a hole, because tenant `b` consumed the
global sequence value 2 in between. -/
theorem tenant_seq_gapfree_counterexample :
    tenantSeqs (runBroadcasts c4w0
      [("a", "task.created", ⟨none, none, none⟩),
       ("b", "task.created", ⟨none, none, none⟩),
       ("a", "task.created", ⟨none, none, none⟩)]).log "a" = [1, 3] ∧
    ¬ GapFree [1, 3] := by
  constructor
  · decide
  · simp [GapFree, List.chain'_cons]

/-- The events appended (in order) by a run of successful broadcasts
starting from global sequence value `c`. -/
def mkEvents (c : Int) : List (String × String × EvPayload) → List EvtData
  | [] => []
  | (org, ty, pl) :: rest =>
    { sequence_id := c + 1, org_id := org, type := ty
      actor_id := none, actor_type := "system", payload := pl } :: mkEvents (c + 1) rest

/-- `[c+1, c+2, ..., c+n]`. -/
def intRange (c : Int) : Nat → List Int
  | 0 => []
  | n + 1 => (c + 1) :: intRange (c + 1) n

theorem runBroadcasts_log : ∀ (reqs : List (String × String × EvPayload)) (w : BWorld),
    (runBroadcasts w reqs).log = w.log ++ mkEvents w.seqCounter reqs := by
  intro reqs
  induction reqs with
  | nil => intro w; simp [runBroadcasts, mkEvents]
  | cons r rest ih =>
    intro w
    obtain ⟨org, ty, pl⟩ := r
    simp only [runBroadcasts, broadcast_event, if_pos]
    rw [ih]
    simp [mkEvents, List.append_assoc]

theorem mkEvents_map_seq : ∀ (reqs : List (String × String × EvPayload)) (c : Int),
    (mkEvents c reqs).map (·.sequence_id) = intRange c reqs.length := by
  intro reqs
  induction reqs with
  | nil => intro c; rfl
  | cons r rest ih =>
    intro c
    obtain ⟨org, ty, pl⟩ := r
    simp [mkEvents, intRange, ih]

theorem intRange_mem_gt : ∀ (n : Nat) (c : Int), ∀ s ∈ intRange c n, c < s := by
  intro n
  induction n with
  | zero => intro c s hs; simp [intRange] at hs
  | succ k ih =>
    intro c s hs
    simp only [intRange, List.mem_cons] at hs
    rcases hs with rfl | hs
    · omega
    · have := ih (c + 1) s hs
      omega

theorem intRange_pairwise : ∀ (n : Nat) (c : Int),
    (intRange c n).Pairwise (· < ·) := by
  intro n
  induction n with
  | zero => intro c; simp [intRange]
  | succ k ih =>
    intro c
    simp only [intRange]
    exact List.pairwise_cons.mpr
      ⟨fun s hs => intRange_mem_gt k (c + 1) s hs, ih (c + 1)⟩

theorem intRange_gapFree : ∀ (n : Nat) (c : Int), GapFree (intRange c n) := by
  intro n
  induction n with
  | zero => intro c; simp [intRange, GapFree]
  | succ k ih =>
    intro c
    cases k with
    | zero => simp [intRange, GapFree]
    | succ j =>
      have h := ih (c + 1)
      simp only [intRange, GapFree] at h ⊢
      exact List.Chain'.cons (by omega) h

/-- C4 amended: the events appended by a run of successful broadcasts
carry globally consecutive sequence ids (continuing the shared counter),
hence within each tenant the ids are strictly increasing — but a
tenant's own ids are *not* gap-free: holes appear wherever other
tenants' appends interleave, retention aside. -/
theorem tenant_seqs_strictly_increasing (w : BWorld)
    (reqs : List (String × String × EvPayload)) (org : String) :
    ((runBroadcasts w reqs).log.drop w.log.length).map (·.sequence_id) =
      intRange w.seqCounter reqs.length ∧
    GapFree (((runBroadcasts w reqs).log.drop w.log.length).map (·.sequence_id)) ∧
    (tenantSeqs ((runBroadcasts w reqs).log.drop w.log.length) org).Pairwise (· < ·) := by
  have hlog : (runBroadcasts w reqs).log.drop w.log.length = mkEvents w.seqCounter reqs := by
    rw [runBroadcasts_log, List.drop_left]
  rw [hlog, mkEvents_map_seq]
  refine ⟨rfl, intRange_gapFree _ _, ?_⟩
  have hsub : (tenantSeqs (mkEvents w.seqCounter reqs) org).Sublist
      ((mkEvents w.seqCounter reqs).map (·.sequence_id)) := by
    exact List.Sublist.map _ (List.filter_sublist _)
  have := intRange_pairwise reqs.length w.seqCounter
  rw [← mkEvents_map_seq] at this
  exact this.sublist hsub

/-! ## Theorems: subscription filter semantics (C6) -/

/-- The per-entry match rule exactly as the claim words it: topic kinds
`project` / `task` / `channel` match on the corresponding (present,
non-empty) payload id, and topic kind `event_type_prefix` matches when
the event's type starts with the entry's value. -/
def claimEntryMatchesLiteral (eventType : String) (p : EvPayload) (e : SubEntry) : Prop :=
  (e.topic_type = some "project" ∧ p.project_id ≠ none ∧ p.project_id ≠ some "" ∧
    p.project_id = e.topic_id)
  ∨ (e.topic_type = some "task" ∧ p.task_id ≠ none ∧ p.task_id ≠ some "" ∧
    p.task_id = e.topic_id)
  ∨ (e.topic_type = some "channel" ∧ p.channel_id ≠ none ∧ p.channel_id ≠ some "" ∧
    p.channel_id = e.topic_id)
  ∨ (e.topic_type = some "event_type_prefix" ∧
    ∃ v, e.topic_id = some v ∧ pyStartsWith eventType v = true)

/-- C6 counterexample: a filter entry of topic kind `event_type_prefix`
with value `task.` matches the event type `task.created` under the
claim's rules, but the engine delivers nothing for it — the code's name
for that topic kind is `event_type`. -/
theorem filter_kind_counterexample :
    matches_subscriptions "task.created" ⟨none, none, none⟩
      (some [⟨some "event_type_prefix", some "task."⟩]) = false ∧
    claimEntryMatchesLiteral "task.created" ⟨none, none, none⟩
      ⟨some "event_type_prefix", some "task."⟩ := by
  constructor
  · decide
  · right; right; right
    exact ⟨rfl, "task.", rfl, by decide⟩

/-- The per-entry match rule with the topic kind the code actually
uses for type prefixes: `event_type`. -/
def specEntryMatches (eventType : String) (p : EvPayload) (e : SubEntry) : Prop :=
  (e.topic_type = some "project" ∧ p.project_id ≠ none ∧ p.project_id ≠ some "" ∧
    p.project_id = e.topic_id)
  ∨ (e.topic_type = some "task" ∧ p.task_id ≠ none ∧ p.task_id ≠ some "" ∧
    p.task_id = e.topic_id)
  ∨ (e.topic_type = some "channel" ∧ p.channel_id ≠ none ∧ p.channel_id ≠ some "" ∧
    p.channel_id = e.topic_id)
  ∨ (e.topic_type = some "event_type" ∧
    ∃ v, e.topic_id = some v ∧ pyStartsWith eventType v = true)

/-- Delivery as the spec words it: no filter (or an empty one) passes
everything, otherwise at least one entry must match. -/
def specDelivers (eventType : String) (p : EvPayload)
    (subs : Option (List SubEntry)) : Prop :=
  subs = none ∨ subs = some [] ∨
    ∃ l, subs = some l ∧ ∃ e ∈ l, specEntryMatches eventType p e

theorem subMatches_iff_spec (eventType : String) (p : EvPayload) (e : SubEntry)
    (hv : ∃ v, e.topic_id = some v) :
    subMatches eventType p e = true ↔ specEntryMatches eventType p e := by
  obtain ⟨v, hv⟩ := hv
  rcases p with ⟨pp, pt, pc⟩
  rcases pp with _ | sp <;> rcases pt with _ | st <;> rcases pc with _ | sc <;>
    simp [subMatches, specEntryMatches, hv, pyStr, pyFalsy, and_assoc] <;>
    try tauto

/-- C6 amended: the SSE engine delivers an event iff the user's filter
is empty (receive all) or at least one filter entry matches, where
project/task/channel entries match on the corresponding non-empty
payload id and an entry of topic kind `event_type` (not
`event_type_prefix`) matches when the event's type starts with the
entry's value; in particular, with a non-empty filter every delivered
event matches at least one entry.  (Hypothesis: every entry carries a
topic id, as the dicts built by the SSE endpoint always do.) -/
theorem filter_delivery_iff_spec (eventType : String) (p : EvPayload)
    (subs : Option (List SubEntry))
    (hwf : ∀ l, subs = some l → ∀ e ∈ l, ∃ v, e.topic_id = some v) :
    (matches_subscriptions eventType p subs = true ↔ specDelivers eventType p subs) ∧
    (∀ l, subs = some l → l ≠ [] → matches_subscriptions eventType p subs = true →
      ∃ e ∈ l, specEntryMatches eventType p e) := by
  constructor
  · cases subs with
    | none => simp [matches_subscriptions, specDelivers]
    | some l =>
      cases l with
      | nil => simp [matches_subscriptions, specDelivers]
      | cons a tl =>
        simp only [matches_subscriptions, specDelivers]
        rw [List.any_eq_true]
        constructor
        · rintro ⟨e, he, hm⟩
          refine Or.inr (Or.inr ⟨a :: tl, rfl, e, he, ?_⟩)
          exact (subMatches_iff_spec eventType p e (hwf _ rfl e he)).mp hm
        · rintro (h | h | ⟨l2, hl2, e, he, hm⟩)
          · exact absurd h (by simp)
          · exact absurd h (by simp)
          · cases Option.some.inj hl2
            exact ⟨e, he, (subMatches_iff_spec eventType p e (hwf _ rfl e he)).mpr hm⟩
  · intro l hl hne hm
    subst hl
    cases l with
    | nil => exact absurd rfl hne
    | cons a tl =>
      obtain ⟨e, he, hme⟩ :=
        List.any_eq_true.mp
          (show (a :: tl).any (subMatches eventType p) = true from hm)
      exact ⟨e, he, (subMatches_iff_spec eventType p e (hwf _ rfl e he)).mp hme⟩

/-- Witness for the amended C6 theorem: a one-entry `event_type` filter
with value `task.` delivers `task.created`. -/
theorem filter_delivery_iff_spec_witness :
    matches_subscriptions "task.created" ⟨none, none, none⟩
      (some [⟨some "event_type", some "task."⟩]) = true ∧
    specDelivers "task.created" ⟨none, none, none⟩
      (some [⟨some "event_type", some "task."⟩]) := by
  have hwf : ∀ l,
      (some [(⟨some "event_type", some "task."⟩ : SubEntry)] :
        Option (List SubEntry)) = some l →
      ∀ e ∈ l, ∃ v, e.topic_id = some v := by
    intro l hl
    cases Option.some.inj hl
    intro e he
    rw [List.mem_singleton] at he
    subst he
    exact ⟨"task.", rfl⟩
  refine ⟨by decide, ?_⟩
  exact ((filter_delivery_iff_spec "task.created" ⟨none, none, none⟩ _ hwf).1).mp
    (by decide)

/-! ## Connection limits (C7)

`app/api/v1/events.py::stream_events` checks the Redis SSE counter
before starting the stream and raises HTTP 429 when it is at the cap;
`event_generator` then increments the counter and, if the incremented
value exceeds the cap, decrements it again and emits an in-stream
`error` event with code `CONNECTION_LIMIT`.  `ConnectionManager.connect`
returns `None` at the WebSocket cap and `websocket_endpoint` then closes
the socket with code 4029, reason `connection_limit_exceeded`.

Counters are Redis integers (`INCR`/`DECR` can go negative), modelled as
`Int`-valued per-org maps; operations are interleaved sequentially, one
step at a time (the single-threaded cooperative scheduling of one
process). -/

/-- The `detail` string of the `HTTPException(429)` raised by
`stream_events`. -/
def SSE_LIMIT_DETAIL : String :=
  "Too many concurrent SSE connections for this organization."

/-- Per-org connection counters for both transports. -/
structure ConnState where
  sse : String → Int
  ws : String → Int

/-- Outcome of an SSE connection attempt. -/
inductive SseOutcome where
  | http429 (detail : String)
  | streamStarted
  | streamLimitError (code : String)
  deriving DecidableEq, Repr

/-- Outcome of a WebSocket connection attempt. -/
inductive WsOutcome where
  | closed (code : Nat) (reason : String)
  | accepted
  deriving DecidableEq, Repr

/-- An SSE connection attempt: endpoint pre-check (`current_count >=
MAX` → 429, nothing held), then the generator's own
increment-and-check (`count > MAX` → decrement and emit the in-stream
`CONNECTION_LIMIT` error event). -/
def sseConnect (s : ConnState) (org : String) : SseOutcome × ConnState :=
  if (MAX_CONNECTIONS_PER_ORG : Int) ≤ s.sse org then
    (SseOutcome.http429 SSE_LIMIT_DETAIL, s)
  else
    let count := s.sse org + 1
    let s1 : ConnState := { s with sse := fun o => if o = org then count else s.sse o }
    if (MAX_CONNECTIONS_PER_ORG : Int) < count then
      (SseOutcome.streamLimitError "CONNECTION_LIMIT",
        { s1 with sse := fun o => if o = org then s1.sse o - 1 else s1.sse o })
    else (SseOutcome.streamStarted, s1)

/-- A WebSocket connection attempt: `ConnectionManager.connect` returns
`None` at the cap and the endpoint closes with 4029; otherwise the
connection is accepted and registered. -/
def wsConnect (s : ConnState) (org : String) : WsOutcome × ConnState :=
  if (MAX_CONNECTIONS_PER_ORG : Int) ≤ s.ws org then
    (WsOutcome.closed 4029 "connection_limit_exceeded", s)
  else
    (WsOutcome.accepted,
      { s with ws := fun o => if o = org then s.ws o + 1 else s.ws o })

/-- Connection-lifecycle operations of the two transports. -/
inductive ConnOp where
  | sseConn (org : String)
  | sseDisc (org : String)
  | wsConn (org : String)
  | wsDisc (org : String)

/-- One step: attempts mutate per the connect functions; disconnects
decrement (the `finally` blocks / `disconnect`). -/
def connStep (s : ConnState) : ConnOp → ConnState
  | ConnOp.sseConn org => (sseConnect s org).2
  | ConnOp.sseDisc org =>
    { s with sse := fun o => if o = org then s.sse o - 1 else s.sse o }
  | ConnOp.wsConn org => (wsConnect s org).2
  | ConnOp.wsDisc org =>
    { s with ws := fun o => if o = org then s.ws o - 1 else s.ws o }

def runConn (s : ConnState) (ops : List ConnOp) : ConnState :=
  ops.foldl connStep s

/-- All counters start at zero. -/
def connInit : ConnState := ⟨fun _ => 0, fun _ => 0⟩

/-- Both per-org counters at or below the cap. -/
def ConnInv (s : ConnState) : Prop :=
  ∀ org, s.sse org ≤ (MAX_CONNECTIONS_PER_ORG : Int) ∧
    s.ws org ≤ (MAX_CONNECTIONS_PER_ORG : Int)

theorem connStep_preserves_inv (s : ConnState) (op : ConnOp)
    (h : ConnInv s) : ConnInv (connStep s op) := by
  cases op with
  | sseConn org =>
    intro o
    obtain ⟨h1, h2⟩ := h o
    simp only [connStep, sseConnect]
    split
    · exact ⟨h1, h2⟩
    · rename_i hlt
      split <;> refine ⟨?_, h2⟩ <;> dsimp only <;> by_cases ho : o = org
      · subst ho; simp only [if_pos rfl]; omega
      · simp only [if_neg ho]; exact h1
      · subst ho; simp only [if_pos rfl]; omega
      · simp only [if_neg ho]; exact h1
  | sseDisc org =>
    intro o
    obtain ⟨h1, h2⟩ := h o
    simp only [connStep]
    refine ⟨?_, h2⟩
    dsimp only
    by_cases ho : o = org
    · subst ho; simp only [if_pos rfl]; omega
    · simp only [if_neg ho]; exact h1
  | wsConn org =>
    intro o
    obtain ⟨h1, h2⟩ := h o
    simp only [connStep, wsConnect]
    split
    · exact ⟨h1, h2⟩
    · rename_i hlt
      refine ⟨h1, ?_⟩
      dsimp only
      by_cases ho : o = org
      · subst ho; simp only [if_pos rfl]; omega
      · simp only [if_neg ho]; exact h2
  | wsDisc org =>
    intro o
    obtain ⟨h1, h2⟩ := h o
    simp only [connStep]
    refine ⟨h1, ?_⟩
    dsimp only
    by_cases ho : o = org
    · subst ho; simp only [if_pos rfl]; omega
    · simp only [if_neg ho]; exact h2

theorem runConn_inv : ∀ (ops : List ConnOp) (s : ConnState),
    ConnInv s → ConnInv (runConn s ops) := by
  intro ops
  induction ops with
  | nil => intro s h; exact h
  | cons op rest ih =>
    intro s h
    exact ih (connStep s op) (connStep_preserves_inv s op h)

set_option maxRecDepth 16384 in
/-- C7 counterexample: after 50 accepted SSE connections for tenant
`t`, the 51st attempt is rejected with HTTP 429 — but the 429 body
(`detail`) does not contain the error code `CONNECTION_LIMIT`; that
code exists only in the in-stream error event of the generator. -/
theorem connection_limit_429_counterexample :
    (sseConnect (runConn connInit (List.replicate 50 (ConnOp.sseConn "t"))) "t").1 =
      SseOutcome.http429 SSE_LIMIT_DETAIL ∧
    ¬ ("CONNECTION_LIMIT".toList <:+: SSE_LIMIT_DETAIL.toList) := by
  constructor
  · decide
  · decide

/-- C7 amended: per tenant and transport, sequentially interleaved
connects and disconnects never push an accepted-connection counter past
the cap of 50; an SSE attempt at the cap is rejected with HTTP 429
whose detail is the fixed message (no `CONNECTION_LIMIT` code in the
429 body) and leaves the state untouched (no resource held); an SSE
attempt below the cap starts the stream; a WebSocket attempt at the cap
is closed with code 4029 and reason `connection_limit_exceeded`,
leaving the state untouched. -/
theorem connection_caps_hold :
    (∀ (ops : List ConnOp) (org : String),
      (runConn connInit ops).sse org ≤ (MAX_CONNECTIONS_PER_ORG : Int) ∧
      (runConn connInit ops).ws org ≤ (MAX_CONNECTIONS_PER_ORG : Int)) ∧
    (∀ (s : ConnState) (org : String), (MAX_CONNECTIONS_PER_ORG : Int) ≤ s.sse org →
      sseConnect s org = (SseOutcome.http429 SSE_LIMIT_DETAIL, s)) ∧
    (∀ (s : ConnState) (org : String), s.sse org < (MAX_CONNECTIONS_PER_ORG : Int) →
      (sseConnect s org).1 = SseOutcome.streamStarted) ∧
    (∀ (s : ConnState) (org : String), (MAX_CONNECTIONS_PER_ORG : Int) ≤ s.ws org →
      wsConnect s org = (WsOutcome.closed 4029 "connection_limit_exceeded", s)) := by
  refine ⟨?_, ?_, ?_, ?_⟩
  · intro ops org
    have hinv : ConnInv connInit := by
      intro o
      constructor <;> simp [connInit]
    exact runConn_inv ops connInit hinv org
  · intro s org h
    unfold sseConnect
    rw [if_pos h]
  · intro s org h
    unfold sseConnect
    rw [if_neg (by omega)]
    simp only [if_pos (show org = org from rfl)]
    rw [if_neg (by omega)]
  · intro s org h
    unfold wsConnect
    rw [if_pos h]

/-- A state with both counters of every tenant at the cap. -/
def c7full : ConnState := ⟨fun _ => 50, fun _ => 50⟩

/-- Witness for the amended C7 theorem: at the cap, SSE attempts get
the 429 with the fixed detail and WS attempts get the 4029 close. -/
theorem connection_caps_hold_witness :
    ((MAX_CONNECTIONS_PER_ORG : Int) ≤ c7full.sse "t") ∧
    sseConnect c7full "t" = (SseOutcome.http429 SSE_LIMIT_DETAIL, c7full) ∧
    wsConnect c7full "t" = (WsOutcome.closed 4029 "connection_limit_exceeded", c7full) :=
  ⟨by decide,
    connection_caps_hold.2.1 c7full "t" (by decide),
    connection_caps_hold.2.2.2 c7full "t" (by decide)⟩

/-! ## The Comms Bridge router (C8)

`packages/bridge/mc_bridge/router.py`.  The router's effects — calls to
the Gateway relay, posts back to the channel, subscription changes,
session-mapping writes — are modelled as an action list; its
environment (resolved sessions, the Gateway's reply) is passed in. -/

/-- Python `s.replace("-", "_")`. -/
def replaceDashes (s : String) : String :=
  ⟨s.toList.map (fun c => if c = '-' then '_' else c)⟩

/-- Python `str.split()` (split on whitespace runs, no empty parts);
`acc` is the current token, reversed. -/
def pySplitWsAux (acc : List Char) : List Char → List String
  | [] => if acc = [] then [] else [⟨acc.reverse⟩]
  | c :: rest =>
    if c.isWhitespace then
      if acc = [] then pySplitWsAux [] rest
      else ⟨acc.reverse⟩ :: pySplitWsAux [] rest
    else pySplitWsAux (c :: acc) rest

def pySplitWs (s : String) : List String := pySplitWsAux [] s.toList

/-- The bridge agent's environment: its configuration, its stored
session mappings, its current subscription topics, and what the Gateway
answers when called. -/
structure BridgeEnv where
  agentName : String
  orgSlug : String
  sessionLookup : String → Option String
  topics : List String
  gatewayChatResp : Option String
  gatewayCmdOutput : Option String

/-- `self._sender_id = agent.name.replace("-", "_")` — the bridge's own
agent identity, attached to every message it posts. -/
def bridgeSenderId (env : BridgeEnv) : String := replaceDashes env.agentName

/-- The payload dict of a `message.created` / `command.invoked` event,
fields via `dict.get`. -/
structure BridgePayload where
  sender_id : Option String
  channel_id : Option String
  content : Option String
  sender_name : Option String
  command : Option String
  args : Option String
  deriving DecidableEq, Repr

/-- Observable effects of the router. -/
inductive BridgeAction where
  | forwardChat (sessionKey message sender : String)
  | forwardCommand (sessionKey command args : String)
  | postChannel (channelId content : String)
  | subscribeTopic (t : String)
  | unsubscribeTopic (t : String)
  | createSession (sessionKey channelId : String)
  deriving DecidableEq, Repr

/-- `EventRouter._resolve_session`: reuse the stored session key or
create a project-style one on first sight. -/
def resolveSession (env : BridgeEnv) (channelId : String) :
    String × List BridgeAction :=
  match env.sessionLookup channelId with
  | some existing => (existing, [])
  | none =>
    let key := "mc:" ++ env.orgSlug ++ ":project:" ++ channelId
    (key, [BridgeAction.createSession key channelId])

/-- `EventRouter._handle_bridge_command` (`mc-bridge subscribe` etc.). -/
def handleBridgeCommand (env : BridgeEnv) (channelId text : String) :
    List BridgeAction :=
  match pySplitWs text with
  | _ :: subcmd :: rest =>
    if subcmd = "subscribe" then
      match rest with
      | topic :: _ =>
        [BridgeAction.subscribeTopic topic,
         BridgeAction.postChannel channelId ("✅ Subscribed to topic: " ++ topic)]
      | [] => []
    else if subcmd = "unsubscribe" then
      match rest with
      | topic :: _ =>
        [BridgeAction.unsubscribeTopic topic,
         BridgeAction.postChannel channelId ("✅ Unsubscribed from topic: " ++ topic)]
      | [] => []
    else if subcmd = "subscriptions" then
      let msg :=
        if env.topics ≠ [] then
          "📋 Active subscriptions:\n" ++
            String.intercalate "\n" (env.topics.map (fun t => "  • " ++ t))
        else "No active subscriptions."
      [BridgeAction.postChannel channelId msg]
    else []
  | _ => []

/-- `EventRouter._handle_message(payload)`. -/
def handleMessage (env : BridgeEnv) (p : BridgePayload) : List BridgeAction :=
  if p.sender_id == some (bridgeSenderId env) then []
  else
    let channelId := p.channel_id.getD ""
    let content := p.content.getD ""
    let sender := p.sender_name.getD "unknown"
    if pyStartsWith (pyStrip content) "mc-bridge " then
      handleBridgeCommand env channelId (pyStrip content)
    else
      let (sessionKey, sessActs) := resolveSession env channelId
      sessActs ++ [BridgeAction.forwardChat sessionKey content sender] ++
        (match env.gatewayChatResp with
         | some r => if r = "" then [] else [BridgeAction.postChannel channelId r]
         | none => [])

/-- `EventRouter._handle_command(payload)`. -/
def handleCommand (env : BridgeEnv) (p : BridgePayload) : List BridgeAction :=
  if p.sender_id == some (bridgeSenderId env) then []
  else
    let channelId := p.channel_id.getD ""
    let command := p.command.getD ""
    let args := p.args.getD ""
    let (sessionKey, sessActs) := resolveSession env channelId
    sessActs ++ [BridgeAction.forwardCommand sessionKey command args] ++
      (match env.gatewayCmdOutput with
       | some r => if r = "" then [] else [BridgeAction.postChannel channelId r]
       | none => [])

/-- C8: when a `message.created` or `command.invoked` payload carries
the bridge's own agent identity as `sender_id`, the router drops it:
no forward to the Gateway, no post back to the channel, no effect at
all. -/
theorem bridge_self_loop_prevention (env : BridgeEnv) (p : BridgePayload)
    (h : p.sender_id = some (bridgeSenderId env)) :
    handleMessage env p = [] ∧ handleCommand env p = [] := by
  constructor <;> simp [handleMessage, handleCommand, h]

/-- A concrete bridge agent environment. -/
def c8env : BridgeEnv :=
  { agentName := "agent-x", orgSlug := "acme"
    sessionLookup := fun _ => none, topics := []
    gatewayChatResp := some "reply", gatewayCmdOutput := some "output" }

/-- A payload sent by the bridge's own identity (`agent_x`). -/
def c8payload : BridgePayload :=
  { sender_id := some "agent_x", channel_id := some "chan-1"
    content := some "hello", sender_name := some "agent-x"
    command := some "status", args := some "" }

/-- Witness for C8 at a concrete self-sent payload. -/
theorem bridge_self_loop_prevention_witness :
    c8payload.sender_id = some (bridgeSenderId c8env) ∧
    handleMessage c8env c8payload = [] ∧ handleCommand c8env c8payload = [] :=
  ⟨by decide, bridge_self_loop_prevention c8env c8payload (by decide)⟩

/-! ## Channels: mentions, commands, the WebSocket `message` frame (C5, C10)

`app/api/v1/channels.py`.  The mention regex
`@([0-9a-f]{8}-[0-9a-f]{4}-[0-9a-f]{4}-[0-9a-f]{4}-[0-9a-f]{12})`
(IGNORECASE) is embedded as a scanner over the character list;
`re.findall` is non-overlapping and resumes after each match, and a
UUID cannot contain `@`, so the scanner resumes 36 characters after a
match.  `uuid.UUID(...)` is modelled on canonical dashed UUID strings
(the only shape the regex yields and the wire format clients send),
normalising to lower case as `UUID.__str__` does. -/

/-- `[0-9a-fA-F]` (the regex group with `re.IGNORECASE`). -/
def isHexDigit (c : Char) : Bool :=
  (('0' ≤ c) && (c ≤ '9')) || (('a' ≤ c) && (c ≤ 'f')) || (('A' ≤ c) && (c ≤ 'F'))

/-- Does a 36-character prefix shape `hex{8}-hex{4}-hex{4}-hex{4}-hex{12}`? -/
def uuidPattern (tok : List Char) : Bool :=
  tok.length == 36 &&
  (List.range 36).all (fun i =>
    match tok.get? i with
    | some c =>
      if i = 8 || i = 13 || i = 18 || i = 23 then c == '-' else isHexDigit c
    | none => false)

def strLower (s : String) : String := ⟨s.toList.map Char.toLower⟩

def strTake (s : String) (n : Nat) : String := ⟨s.toList.take n⟩

def strDrop (s : String) (n : Nat) : String := ⟨s.toList.drop n⟩

/-- `uuid.UUID(s)` on a canonical dashed UUID string: validates the
shape and returns the lower-case canonical form; `none` models the
`ValueError`. -/
def pyUUID (s : String) : Option String :=
  if uuidPattern s.toList ∧ s.toList.length = 36 then some (strLower s) else none

/-- The scanner behind `MENTION_PATTERN.findall`: at each `@`, match a
UUID and resume after it.  `skip` pending characters are consumed
first (the 36 characters of a match just emitted), keeping the
recursion structural. -/
def scanMentionsAux (skip : Nat) : List Char → List String
  | [] => []
  | c :: rest =>
    match skip with
    | k + 1 => scanMentionsAux k rest
    | 0 =>
      if c = '@' then
        if uuidPattern (rest.take 36) then
          strLower ⟨rest.take 36⟩ :: scanMentionsAux 36 rest
        else scanMentionsAux 0 rest
      else scanMentionsAux 0 rest

def scanMentions (cs : List Char) : List String := scanMentionsAux 0 cs

/-- `_parse_mentions_from_content(content)`: regex matches, each parsed
through `UUID(...)` (which always succeeds on a regex match). -/
def parse_mentions_from_content (content : String) : List String :=
  scanMentions content.toList

/-- A `channels` row (the fields `_get_channel` /
`_verify_channel_access` read). -/
structure ChannelRec where
  id : String
  org_id : String
  type : String
  project_id : Option String
  deriving DecidableEq, Repr

/-- A `users` row (the fields `_get_sender_info` reads). -/
structure UserRec where
  id : String
  email : Option String
  identifier : Option String
  utype : String
  deriving DecidableEq, Repr

/-- A persisted `messages` row (`id` is the DB-assigned UUID,
`created_at` omitted as wall-clock time). -/
structure MessageRec where
  id : String
  org_id : String
  channel_id : String
  sender_id : String
  content : String
  mentions : List String
  deriving DecidableEq, Repr

/-- Database state the handler reads, plus the id the DB will assign
to the inserted message. -/
structure ChanEnv where
  channels : List ChannelRec
  assignments : List (String × String)
  users : List UserRec
  newMsgId : String

/-- `_get_channel(session, channel_id, org_id)`. -/
def getChannel (env : ChanEnv) (channelId orgId : String) : Option ChannelRec :=
  env.channels.find? (fun ch => ch.id == channelId && ch.org_id == orgId)

/-- `_verify_channel_access(session, channel, user_id)`. -/
def verifyChannelAccess (env : ChanEnv) (ch : ChannelRec) (userId : String) : Bool :=
  if ch.type == "org_wide" then true
  else if ch.type == "project" && !(pyFalsy ch.project_id) then
    env.assignments.any (fun a => some a.1 == ch.project_id && a.2 == userId)
  else true

/-- `_get_sender_info(session, sender_id)`:
`user.email or user.identifier or str(user.id)[:8]` and `user.type`. -/
def getSenderInfo (env : ChanEnv) (senderId : String) :
    Option String × Option String :=
  match env.users.find? (fun u => u.id == senderId) with
  | some u =>
    (some (pyStrOr u.email (pyStrOr u.identifier (strTake u.id 8))), some u.utype)
  | none => (none, none)

/-- The broadcast payload the `message` frame handler publishes on the
tenant's chat stream (`created_at` omitted as wall-clock time). -/
structure ChatPayload where
  ptype : String
  id : String
  channel_id : String
  sender_id : String
  sender_display_name : Option String
  sender_type : Option String
  content : String
  mentions : List String
  client_id : Option String
  deriving DecidableEq, Repr

/-- `list(set(xs))` for strings: one element per distinct string (the
iteration order of a Python `set` is unspecified; this embedding keeps
the last occurrence). -/
def pyDedup : List String → List String
  | [] => []
  | x :: rest => if rest.contains x then pyDedup rest else x :: pyDedup rest

/-- Observable effects of the WebSocket `message` frame handler. -/
inductive WsAction where
  | sendError (code : String)
  | persistMessage (m : MessageRec)
  | publishChat (payload : ChatPayload)
  | emitEvent (etype : String) (kvs : List (String × String))
  | exception
  deriving DecidableEq, Repr

/-- `_handle_mentions_and_commands(session, message, auth, channel)`:
one `mention.created` per mentioned user other than the sender (the
union is a Python `set`; `List.dedup` fixes one iteration order), and a
`command.invoked` when the stripped content starts with `/`. -/
def handleMentionsAndCommands (msg : MessageRec) (senderId channelId : String) :
    List WsAction :=
  let allMentions := pyDedup (msg.mentions ++ parse_mentions_from_content msg.content)
  let mentionActs := (allMentions.filter (fun u => u ≠ senderId)).map (fun u =>
    WsAction.emitEvent "mention.created"
      [("message_id", msg.id), ("channel_id", channelId),
       ("sender_id", senderId), ("mentioned_user_id", u)])
  let stripped := pyStrip msg.content
  let cmdActs :=
    if pyStartsWith stripped "/" then
      [WsAction.emitEvent "command.invoked"
        [("message_id", msg.id), ("channel_id", channelId),
         ("sender_id", senderId),
         ("command", strDrop (firstToken stripped) 1),
         ("args", restTokens stripped)]]
    else []
  mentionActs ++ cmdActs

/-- The `message` frame branch of `websocket_endpoint`: validation,
mention parsing/union, persistence, chat-stream publish (echoing the
originator's `client_id` plus sender display name and kind), then
mention/command handling.  An invalid explicit mention raises
(`UUID(m)` `ValueError`, caught only by the outer handler). -/
def wsHandleMessageFrame (env : ChanEnv) (orgId userId : String)
    (frameChannelId frameContent frameClientId : Option String)
    (frameMentions : List String) : List WsAction :=
  if pyFalsy frameChannelId || pyFalsy frameContent then
    [WsAction.sendError "INVALID_MESSAGE"]
  else
    let cidStr := frameChannelId.getD ""
    let content := frameContent.getD ""
    match pyUUID cidStr with
    | none => [WsAction.sendError "INVALID_CHANNEL_ID"]
    | some channelId =>
      match getChannel env channelId orgId with
      | none => [WsAction.sendError "CHANNEL_NOT_FOUND"]
      | some ch =>
        if !(verifyChannelAccess env ch userId) then
          [WsAction.sendError "ACCESS_DENIED"]
        else
          let explicitParsed := (frameMentions.filter (fun m => m ≠ "")).map pyUUID
          if explicitParsed.any Option.isNone then [WsAction.exception]
          else
            let explicitMentions := explicitParsed.reduceOption
            let parsed := parse_mentions_from_content content
            let allMentions := pyDedup (explicitMentions ++ parsed)
            let msg : MessageRec :=
              { id := env.newMsgId, org_id := orgId, channel_id := ch.id
                sender_id := userId, content := content, mentions := allMentions }
            let info := getSenderInfo env userId
            let payload : ChatPayload :=
              { ptype := "message", id := msg.id, channel_id := ch.id
                sender_id := userId, sender_display_name := info.1
                sender_type := info.2, content := content
                mentions := msg.mentions, client_id := frameClientId }
            [WsAction.persistMessage msg, WsAction.publishChat payload] ++
              handleMentionsAndCommands msg userId ch.id

/-! ## Theorems: the WebSocket `message` frame (C5) and mention events (C10) -/

/-- Is the action an `emitEvent` of the given type? -/
def isEmitOf (t : String) : WsAction → Bool
  | WsAction.emitEvent t2 _ => t2 == t
  | _ => false

/-- The mention/command stage never emits `message.created`. -/
theorem handleMentions_no_message_created (msg : MessageRec)
    (senderId channelId : String) :
    (handleMentionsAndCommands msg senderId channelId).any
      (isEmitOf "message.created") = false := by
  rw [List.any_eq_false]
  intro a ha
  unfold handleMentionsAndCommands at ha
  rw [List.mem_append] at ha
  rcases ha with ha | ha
  · obtain ⟨u, _, rfl⟩ := List.mem_map.mp ha
    simp [isEmitOf]
  · split at ha
    · rcases List.mem_singleton.mp ha with rfl
      simp [isEmitOf]
    · simp at ha

/-- A channel, a user and the message id the DB will assign. -/
def c5env : ChanEnv :=
  { channels := [⟨"11111111-1111-1111-1111-111111111111", "org", "org_wide", none⟩]
    assignments := []
    users := [⟨"u1", some "u@x.com", none, "human"⟩]
    newMsgId := "m1" }

/-- C5 counterexample: a fully valid WebSocket `message` frame on an
accessible channel.  The handler persists and publishes (echoing
`client_id`, display name and kind) — but emits no `message.created`
event at all: only the REST `post_message` endpoint does that. -/
theorem ws_no_message_created_counterexample :
    wsHandleMessageFrame c5env "org" "u1"
      (some "11111111-1111-1111-1111-111111111111") (some "hello") (some "c1") [] =
      [WsAction.persistMessage
        ⟨"m1", "org", "11111111-1111-1111-1111-111111111111", "u1", "hello", []⟩,
       WsAction.publishChat
        ⟨"message", "m1", "11111111-1111-1111-1111-111111111111", "u1",
          some "u@x.com", some "human", "hello", [], some "c1"⟩] ∧
    (wsHandleMessageFrame c5env "org" "u1"
      (some "11111111-1111-1111-1111-111111111111") (some "hello") (some "c1")
      []).any (isEmitOf "message.created") = false := by
  constructor
  · decide
  · decide

/-- C5 amended: for every valid inbound WebSocket `message` frame on a
channel the sender may access, `@<uuid>` mentions are parsed from the
content and unioned with the explicit mentions, the message is
persisted, a broadcast payload echoing the originator's `client_id`
plus sender display name and kind is published on the tenant's chat
stream, and — when the content, after stripping, starts with `/` — a
`command.invoked` event with the command token and argument tail is
emitted; no `message.created` event is emitted on this path (only the
REST endpoint emits it). -/
theorem ws_message_frame_behavior (env : ChanEnv) (orgId userId : String)
    (cidS contentS : String) (clientId : Option String) (mentions : List String)
    (channelId : String) (ch : ChannelRec)
    (hcid : cidS ≠ "") (hcontent : contentS ≠ "")
    (hparse : pyUUID cidS = some channelId)
    (hchan : getChannel env channelId orgId = some ch)
    (hacc : verifyChannelAccess env ch userId = true)
    (hexp : ((mentions.filter (fun m => m ≠ "")).map pyUUID).any Option.isNone = false) :
    ∃ msg payload,
      wsHandleMessageFrame env orgId userId (some cidS) (some contentS) clientId
          mentions =
        [WsAction.persistMessage msg, WsAction.publishChat payload] ++
          handleMentionsAndCommands msg userId ch.id ∧
      msg.mentions = pyDedup (((mentions.filter (fun m => m ≠ "")).map pyUUID).reduceOption ++
        parse_mentions_from_content contentS) ∧
      msg.content = contentS ∧ msg.sender_id = userId ∧ msg.channel_id = ch.id ∧
      payload.client_id = clientId ∧
      payload.sender_display_name = (getSenderInfo env userId).1 ∧
      payload.sender_type = (getSenderInfo env userId).2 ∧
      payload.content = contentS ∧
      (pyStartsWith (pyStrip contentS) "/" = true →
        WsAction.emitEvent "command.invoked"
          [("message_id", msg.id), ("channel_id", ch.id), ("sender_id", userId),
           ("command", strDrop (firstToken (pyStrip contentS)) 1),
           ("args", restTokens (pyStrip contentS))] ∈
          wsHandleMessageFrame env orgId userId (some cidS) (some contentS)
            clientId mentions) ∧
      (wsHandleMessageFrame env orgId userId (some cidS) (some contentS) clientId
        mentions).any (isEmitOf "message.created") = false := by
  have h1 : pyFalsy (some cidS) = false := by simp [pyFalsy, hcid]
  have h2 : pyFalsy (some contentS) = false := by simp [pyFalsy, hcontent]
  have hmain : wsHandleMessageFrame env orgId userId (some cidS) (some contentS)
      clientId mentions =
      [WsAction.persistMessage
        { id := env.newMsgId, org_id := orgId, channel_id := ch.id
          sender_id := userId, content := contentS
          mentions := pyDedup (((mentions.filter (fun m => m ≠ "")).map pyUUID).reduceOption ++
            parse_mentions_from_content contentS) },
       WsAction.publishChat
        { ptype := "message", id := env.newMsgId, channel_id := ch.id
          sender_id := userId, sender_display_name := (getSenderInfo env userId).1
          sender_type := (getSenderInfo env userId).2, content := contentS
          mentions := pyDedup (((mentions.filter (fun m => m ≠ "")).map pyUUID).reduceOption ++
            parse_mentions_from_content contentS)
          client_id := clientId }] ++
        handleMentionsAndCommands
          { id := env.newMsgId, org_id := orgId, channel_id := ch.id
            sender_id := userId, content := contentS
            mentions := pyDedup (((mentions.filter (fun m => m ≠ "")).map pyUUID).reduceOption ++
              parse_mentions_from_content contentS) }
          userId ch.id := by
    unfold wsHandleMessageFrame
    simp only [h1, h2, hparse, hchan, hacc, hexp, Bool.or_self, Bool.not_true,
      Bool.false_eq_true, if_false, Option.getD_some]
  refine ⟨_, _, hmain, rfl, rfl, rfl, rfl, rfl, rfl, rfl, rfl, ?_, ?_⟩
  · intro hslash
    rw [hmain]
    rw [List.mem_append]
    right
    unfold handleMentionsAndCommands
    rw [List.mem_append]
    right
    rw [if_pos hslash]
    exact List.mem_singleton.mpr rfl
  · rw [hmain]
    simp only [List.any_append, List.any_cons, List.any_nil, isEmitOf,
      handleMentions_no_message_created, Bool.or_false, Bool.false_or]
    try rfl

/-- Witness for the amended C5 theorem at a concrete valid frame. -/
theorem ws_message_frame_behavior_witness :
    ("11111111-1111-1111-1111-111111111111" : String) ≠ "" ∧
    ("hello" : String) ≠ "" ∧
    pyUUID "11111111-1111-1111-1111-111111111111" =
      some "11111111-1111-1111-1111-111111111111" ∧
    getChannel c5env "11111111-1111-1111-1111-111111111111" "org" =
      some ⟨"11111111-1111-1111-1111-111111111111", "org", "org_wide", none⟩ ∧
    verifyChannelAccess c5env
      ⟨"11111111-1111-1111-1111-111111111111", "org", "org_wide", none⟩ "u1" = true ∧
    (wsHandleMessageFrame c5env "org" "u1"
      (some "11111111-1111-1111-1111-111111111111") (some "hello") (some "c1")
      []).any (isEmitOf "message.created") = false := by
  refine ⟨by decide, by decide, by decide, by decide, by decide, ?_⟩
  obtain ⟨msg, payload, -, -, -, -, -, -, -, -, -, -, hany⟩ :=
    ws_message_frame_behavior c5env "org" "u1"
      "11111111-1111-1111-1111-111111111111" "hello" (some "c1") []
      "11111111-1111-1111-1111-111111111111"
      ⟨"11111111-1111-1111-1111-111111111111", "org", "org_wide", none⟩
      (by decide) (by decide) (by decide) (by decide) (by decide) (by decide)
  exact hany

/-- Extract the `mentioned_user_id` of a `mention.created` emission. -/
def mentionTarget : WsAction → Option String
  | WsAction.emitEvent t kvs =>
    if t = "mention.created" then kvs.lookup "mentioned_user_id" else none
  | _ => none

/-- C10: for every persisted message, the `mention.created` events the
handler emits target exactly the distinct mentioned users (parsed from
content or supplied explicitly) other than the sender — and the sender
is never among them. -/
theorem mention_created_targets (msg : MessageRec) (senderId channelId : String) :
    ((handleMentionsAndCommands msg senderId channelId).filterMap mentionTarget) =
      (pyDedup (msg.mentions ++ parse_mentions_from_content msg.content)).filter
        (fun u => u ≠ senderId) ∧
    senderId ∉
      (pyDedup (msg.mentions ++ parse_mentions_from_content msg.content)).filter
        (fun u => u ≠ senderId) := by
  constructor
  · unfold handleMentionsAndCommands
    rw [List.filterMap_append, List.filterMap_map]
    have h2 : List.filterMap mentionTarget
        (if pyStartsWith (pyStrip msg.content) "/" = true then
          [WsAction.emitEvent "command.invoked"
            [("message_id", msg.id), ("channel_id", channelId),
             ("sender_id", senderId),
             ("command", strDrop (firstToken (pyStrip msg.content)) 1),
             ("args", restTokens (pyStrip msg.content))]]
        else []) = [] := by
      split <;> rfl
    rw [h2, List.append_nil]
    generalize (pyDedup (msg.mentions ++ parse_mentions_from_content
      msg.content)).filter (fun u => u ≠ senderId) = l
    induction l with
    | nil => rfl
    | cons a t ih =>
      rw [List.filterMap_cons_some
        (f := mentionTarget ∘ fun u =>
          WsAction.emitEvent "mention.created"
            [("message_id", msg.id), ("channel_id", channelId),
             ("sender_id", senderId), ("mentioned_user_id", u)])
        (b := a) rfl, ih]
  · intro hmem
    rw [List.mem_filter] at hmem
    simp at hmem

/-! ## The bridge relay (C9)

`packages/bridge/mc_bridge/relay.py::MessageRelay`.  `_post_to_mc` runs
`for attempt in range(MAX_RETRIES)`; a 429 sleeps `Retry-After` (or
`RETRY_BASE_SECONDS * (attempt+1)`) and `continue`s without recording
an exception; `raise_for_status` errors with a 4xx code re-raise
immediately, 5xx and `ConnectError`/`ReadError` record the exception
and sleep `RETRY_BASE_SECONDS * 2**attempt`; exceptions of other
classes (e.g. a read timeout) are not caught inside the loop.  After
the loop the recorded exception, if any, is raised — otherwise the call
returns as if it had succeeded.  `post_to_mc` catches any raise and
appends the message to `deque(maxlen=1000)` (dropping the oldest when
full).  Durations are exact in `ℚ` (the floats involved are small
integer multiples of powers of two or parsed header values). -/

def MAX_RETRIES : Nat := 3
def RETRY_BASE_SECONDS : ℚ := 1
def OUTBOUND_BUFFER_MAX : Nat := 1000

/-- What the HTTP client reports for one POST attempt.  `httpErr c` is
an `HTTPStatusError` from `raise_for_status` (so `c ≥ 400`; a 429 never
reaches it, the loop tests 429 first). -/
inductive HttpAttempt where
  | ok
  | http429 (retryAfter : Option ℚ)
  | httpErr (code : Nat)
  | connectErr
  | readErr
  | otherExc
  deriving DecidableEq, Repr

/-- The exception `_post_to_mc` raises. -/
inductive PostExc where
  | clientErr (code : Nat)
  | serverErr (code : Nat)
  | transport
  | uncaught
  deriving DecidableEq, Repr

/-- What a `_post_to_mc` call did: `result = none` means it returned
normally; `sleeps` are the waits performed, in order. -/
structure LoopOut where
  result : Option PostExc
  sleeps : List ℚ
  deriving DecidableEq, Repr

/-- The retry loop; `remaining` iterations left, `attempt` the current
index (for the backoff exponent), `lastExc` the recorded exception. -/
def postLoopAux (resp : Nat → HttpAttempt) :
    Nat → Nat → Option PostExc → LoopOut
  | 0, _, lastExc => { result := lastExc, sleeps := [] }
  | r + 1, attempt, lastExc =>
    match resp attempt with
    | HttpAttempt.ok => { result := none, sleeps := [] }
    | HttpAttempt.http429 ra =>
      let d := ra.getD (RETRY_BASE_SECONDS * ((attempt : ℚ) + 1))
      let rest := postLoopAux resp r (attempt + 1) lastExc
      { result := rest.result, sleeps := d :: rest.sleeps }
    | HttpAttempt.httpErr c =>
      if 400 ≤ c ∧ c < 500 then { result := some (PostExc.clientErr c), sleeps := [] }
      else
        let b := RETRY_BASE_SECONDS * (2 : ℚ) ^ attempt
        let rest := postLoopAux resp r (attempt + 1) (some (PostExc.serverErr c))
        { result := rest.result, sleeps := b :: rest.sleeps }
    | HttpAttempt.connectErr =>
      let b := RETRY_BASE_SECONDS * (2 : ℚ) ^ attempt
      let rest := postLoopAux resp r (attempt + 1) (some PostExc.transport)
      { result := rest.result, sleeps := b :: rest.sleeps }
    | HttpAttempt.readErr =>
      let b := RETRY_BASE_SECONDS * (2 : ℚ) ^ attempt
      let rest := postLoopAux resp r (attempt + 1) (some PostExc.transport)
      { result := rest.result, sleeps := b :: rest.sleeps }
    | HttpAttempt.otherExc => { result := some PostExc.uncaught, sleeps := [] }

/-- `MessageRelay._post_to_mc(...)` against the given per-attempt
responses. -/
def postLoop (resp : Nat → HttpAttempt) : LoopOut :=
  postLoopAux resp MAX_RETRIES 0 none

/-- One buffered outbound message. -/
structure OutMsg where
  channel_id : String
  content : String
  sender_id : String
  sender_name : String
  api_key : String
  org_slug : String
  deriving DecidableEq, Repr

/-- `deque(maxlen=OUTBOUND_BUFFER_MAX).append`: drop the oldest entry
when full. -/
def pushBounded (buf : List OutMsg) (m : OutMsg) : List OutMsg :=
  if buf.length < OUTBOUND_BUFFER_MAX then buf ++ [m] else buf.tail ++ [m]

/-- `MessageRelay.post_to_mc(...)`: returns `True` when `_post_to_mc`
returns, else buffers the message and returns `False`. -/
def post_to_mc (buf : List OutMsg) (m : OutMsg) (resp : Nat → HttpAttempt) :
    Bool × List OutMsg :=
  match (postLoop resp).result with
  | none => (true, buf)
  | some _ => (false, pushBounded buf m)

def c9msg : OutMsg := ⟨"chan", "hello", "agent_x", "agent-x", "key", "acme"⟩

/-- C9 counterexample: three consecutive 429 responses exhaust the
retry budget (three attempts, sleeping the `Retry-After` of 7 s each
time), yet `_post_to_mc` returns as a success and `post_to_mc` buffers
nothing — nothing was posted and nothing is enqueued for a later
flush. -/
theorem relay_429_exhaustion_counterexample :
    (postLoop (fun _ => HttpAttempt.http429 (some 7))).sleeps = [7, 7, 7] ∧
    (postLoop (fun _ => HttpAttempt.http429 (some 7))).result = none ∧
    post_to_mc [] c9msg (fun _ => HttpAttempt.http429 (some 7)) = (true, []) := by
  refine ⟨?_, ?_, ?_⟩ <;> decide

/-- An attempt outcome the loop retries after: a transport failure or a
5xx status. -/
def Retryable (a : HttpAttempt) : Prop :=
  a = HttpAttempt.connectErr ∨ a = HttpAttempt.readErr ∨
    ∃ c, a = HttpAttempt.httpErr c ∧ 500 ≤ c

theorem backoff_cons (attempt k : Nat) :
    RETRY_BASE_SECONDS * (2 : ℚ) ^ attempt ::
      (List.range k).map (fun j => RETRY_BASE_SECONDS * (2 : ℚ) ^ (attempt + 1 + j)) =
    (List.range (k + 1)).map (fun j => RETRY_BASE_SECONDS * (2 : ℚ) ^ (attempt + j)) := by
  rw [List.range_succ_eq_map, List.map_cons, List.map_map]
  congr 1
  apply List.map_congr_left
  intro j _
  simp only [Function.comp_apply]
  rw [show attempt + Nat.succ j = attempt + 1 + j by omega]

/-- When every remaining attempt fails with a retryable error, the loop
sleeps the exponential backoffs in order and ends with a recorded
exception (which the epilogue raises). -/
theorem postLoopAux_all_retryable (resp : Nat → HttpAttempt) :
    ∀ (r attempt : Nat) (lastExc : Option PostExc),
    (∀ i, attempt ≤ i → i < attempt + r → Retryable (resp i)) →
    (postLoopAux resp r attempt lastExc).sleeps =
      (List.range r).map (fun j => RETRY_BASE_SECONDS * (2 : ℚ) ^ (attempt + j)) ∧
    (r = 0 → (postLoopAux resp r attempt lastExc).result = lastExc) ∧
    (0 < r → (postLoopAux resp r attempt lastExc).result ≠ none) := by
  intro r
  induction r with
  | zero =>
    intro attempt lastExc _
    exact ⟨rfl, fun _ => rfl, fun h => absurd h (by omega)⟩
  | succ k ih =>
    intro attempt lastExc hall
    have h0 : Retryable (resp attempt) := hall attempt le_rfl (by omega)
    have hrest : ∀ (e : Option PostExc),
        (postLoopAux resp k (attempt + 1) e).sleeps =
          (List.range k).map (fun j => RETRY_BASE_SECONDS * (2 : ℚ) ^ (attempt + 1 + j)) ∧
        (k = 0 → (postLoopAux resp k (attempt + 1) e).result = e) ∧
        (0 < k → (postLoopAux resp k (attempt + 1) e).result ≠ none) :=
      fun e => ih (attempt + 1) e (fun i h1 h2 => hall i (by omega) (by omega))
    have hresult : ∀ (c : PostExc),
        (postLoopAux resp k (attempt + 1) (some c)).result ≠ none := by
      intro c
      rcases Nat.eq_zero_or_pos k with hk | hk
      · rw [(hrest (some c)).2.1 hk]
        exact Option.some_ne_none c
      · exact (hrest (some c)).2.2 hk
    rcases h0 with h0 | h0 | ⟨c, h0, hc⟩ <;>
      simp only [postLoopAux, h0] <;>
      refine ⟨?_, fun h => absurd h (by omega), fun _ => ?_⟩
    · rw [(hrest (some PostExc.transport)).1]
      exact backoff_cons attempt k
    · exact hresult PostExc.transport
    · rw [(hrest (some PostExc.transport)).1]
      exact backoff_cons attempt k
    · exact hresult PostExc.transport
    · rw [if_neg (by omega)]
      rw [(hrest (some (PostExc.serverErr c))).1]
      exact backoff_cons attempt k
    · rw [if_neg (by omega)]
      exact hresult (PostExc.serverErr c)

/-- When every remaining attempt answers 429, the loop sleeps each
`Retry-After` but records no exception, so the call ends as a
success. -/
theorem postLoopAux_all_429 (resp : Nat → HttpAttempt) :
    ∀ (r attempt : Nat) (lastExc : Option PostExc),
    (∀ i, attempt ≤ i → i < attempt + r → ∃ ra, resp i = HttpAttempt.http429 ra) →
    (postLoopAux resp r attempt lastExc).result = lastExc := by
  intro r
  induction r with
  | zero => intro attempt lastExc _; rfl
  | succ k ih =>
    intro attempt lastExc hall
    obtain ⟨ra, h0⟩ := hall attempt le_rfl (by omega)
    simp only [postLoopAux, h0]
    exact ih (attempt + 1) lastExc (fun i h1 h2 => hall i (by omega) (by omega))

/-- C9 amended: hub POSTs make up to three attempts in total.  A 4xx
other than 429 fails immediately with no retry and no backoff, and the
message is enqueued in the outbound buffer; three transport-failure /
5xx attempts sleep the exponential backoffs 1 s, 2 s, 4 s, raise the
recorded error, and enqueue the message; a 429 waits the `Retry-After`
duration before the next attempt; but when every attempt ends in 429
the exhausted call returns as a success and nothing is enqueued; the
outbound buffer never grows past 1000 entries. -/
theorem relay_retry_behavior (buf : List OutMsg) (m : OutMsg)
    (resp : Nat → HttpAttempt) :
    (∀ c, resp 0 = HttpAttempt.httpErr c → 400 ≤ c → c < 500 →
      postLoop resp = { result := some (PostExc.clientErr c), sleeps := [] } ∧
      post_to_mc buf m resp = (false, pushBounded buf m)) ∧
    ((∀ i, i < MAX_RETRIES → Retryable (resp i)) →
      (postLoop resp).sleeps = [1, 2, 4] ∧
      (postLoop resp).result ≠ none ∧
      post_to_mc buf m resp = (false, pushBounded buf m)) ∧
    (∀ q, resp 0 = HttpAttempt.http429 (some q) →
      (postLoop resp).sleeps.head? = some q) ∧
    ((∀ i, i < MAX_RETRIES → ∃ ra, resp i = HttpAttempt.http429 ra) →
      (postLoop resp).result = none ∧ post_to_mc buf m resp = (true, buf)) ∧
    (buf.length ≤ OUTBOUND_BUFFER_MAX →
      (pushBounded buf m).length ≤ OUTBOUND_BUFFER_MAX) := by
  refine ⟨?_, ?_, ?_, ?_, ?_⟩
  · intro c h h4 h5
    have hp : postLoop resp = { result := some (PostExc.clientErr c), sleeps := [] } := by
      show postLoopAux resp MAX_RETRIES 0 none = _
      simp only [MAX_RETRIES, postLoopAux, h]
      rw [if_pos ⟨h4, h5⟩]
    refine ⟨hp, ?_⟩
    unfold post_to_mc
    rw [hp]
  · intro hall
    obtain ⟨hsleeps, _, hres⟩ :=
      postLoopAux_all_retryable resp MAX_RETRIES 0 none
        (fun i _ h2 => hall i (by omega))
    have hres2 : (postLoop resp).result ≠ none := hres (by decide)
    refine ⟨?_, hres2, ?_⟩
    · show (postLoopAux resp MAX_RETRIES 0 none).sleeps = _
      rw [hsleeps]
      norm_num [MAX_RETRIES, RETRY_BASE_SECONDS, List.range_succ]
    · unfold post_to_mc
      rcases hx : (postLoop resp).result with _ | e
      · exact absurd hx hres2
      · rfl
  · intro q h
    show (postLoopAux resp MAX_RETRIES 0 none).sleeps.head? = some q
    simp only [MAX_RETRIES, postLoopAux, h]
    rfl
  · intro hall
    have hp : (postLoop resp).result = none :=
      postLoopAux_all_429 resp MAX_RETRIES 0 none (fun i _ h2 => hall i (by omega))
    refine ⟨hp, ?_⟩
    unfold post_to_mc
    rw [hp]
  · intro hle
    unfold pushBounded
    have hM : OUTBOUND_BUFFER_MAX = 1000 := rfl
    rw [hM] at hle ⊢
    split
    · rename_i hlt
      have hlen : (buf ++ [m]).length = buf.length + 1 := by simp
      omega
    · rename_i hge
      have hlen : (buf.tail ++ [m]).length = buf.tail.length + 1 := by simp
      have ht : buf.tail.length = buf.length - 1 := List.length_tail buf
      omega

/-- Witness for the amended C9 theorem: a 404 on the first attempt
fails fast and the message lands in the outbound buffer. -/
theorem relay_retry_behavior_witness :
    (fun _ => HttpAttempt.httpErr 404 : Nat → HttpAttempt) 0 =
      HttpAttempt.httpErr 404 ∧
    (400 ≤ 404 ∧ 404 < 500) ∧
    postLoop (fun _ => HttpAttempt.httpErr 404) =
      { result := some (PostExc.clientErr 404), sleeps := [] } ∧
    post_to_mc [] c9msg (fun _ => HttpAttempt.httpErr 404) =
      (false, pushBounded [] c9msg) := by
  have h :=
    (relay_retry_behavior [] c9msg (fun _ => HttpAttempt.httpErr 404)).1 404 rfl
      (by decide) (by decide)
  exact ⟨rfl, ⟨by decide, by decide⟩, h.1, h.2⟩
